import Mathlib

/-!
Shallow embedding of the ComfyModal library (src/comfyModal.ts, module-level API,
lines 1-468; the class-based variant appended below line 468 is a superseded
earlier iteration and is not modelled).

The embedding covers:
* the scroll-intent resolver (`canStillScrollWithinLockscreen` and the wheel /
  touch listeners attached to the lockscreen), modelling a DOM element as the
  record of exactly the fields the resolver reads, and the parent chain from an
  event target upward as a list;
* the modal lifecycle manager (`openModal`, `closeModal`, `closeAllModals`,
  `closeModalObject`) as explicit state passing over a registry of records,
  with the asynchronous continuations (entry animations settled, exit
  animations settled) modelled as separate step functions, and observable
  promise resolutions / animation starts modelled as emitted events.

Fallible paths of the JavaScript (a null dereference when the parent walk runs
out of elements, or a touch move before any touch start) are modelled with
`Option`/sentinel results.
-/

/-- Scroll direction derived from an input event: the TS string union
`'up'|'down'|'left'|'right'` (comfyModal.ts line 435). -/
inductive Direction where
  | up
  | down
  | left
  | right
deriving DecidableEq, Repr

/-- Touch scroll axis: the TS string union `'x'|'y'` (comfyModal.ts line 43). -/
inductive Axis where
  | x
  | y
deriving DecidableEq, Repr

/-- A DOM element as seen by the scroll-intent resolver: exactly the fields
read by `canStillScrollWithinLockscreen` (comfyModal.ts lines 435-468).
`isBody` embeds `nodeName === 'BODY'`; `isLockscreen` embeds
`classList.contains('comfymodal-lockscreen')`. Scroll metrics are integers. -/
structure Elem where
  isBody : Bool
  isLockscreen : Bool
  scrollTop : Int
  scrollLeft : Int
  scrollHeight : Int
  clientHeight : Int
  scrollWidth : Int
  clientWidth : Int
deriving DecidableEq, Repr

/-- Result of the upward walk in `canStillScrollWithinLockscreen`
(comfyModal.ts lines 437-448): either the lockscreen was found (carrying the
collected hierarchy, lockscreen included), or a BODY node was hit first
(the function returns `false` there), or the chain ran out of parents
(in the JS this would be a null dereference of `parentElement`). -/
inductive WalkResult where
  | foundLockscreen (hierarchy : List Elem)
  | reachedBody (hierarchy : List Elem)
  | ranOut
deriving DecidableEq, Repr

/-- The `while (true)` walk of comfyModal.ts lines 437-448. The input list is
the chain from the event target through its successive `parentElement`s; `acc`
is the `elementHierarchy` array being built. Each element is pushed first, then
the BODY check runs, then the lockscreen check. -/
def collectHierarchy (acc : List Elem) : List Elem → WalkResult
  | [] => WalkResult.ranOut
  | e :: rest =>
      let acc2 := acc ++ [e]
      if e.isBody then WalkResult.reachedBody acc2
      else if e.isLockscreen then WalkResult.foundLockscreen acc2
      else collectHierarchy acc2 rest

/-- `['up', 'down'].includes(direction)` where `direction` may be the JS value
`undefined` (modelled as `none`), as happens for a wheel event with both deltas
zero (comfyModal.ts lines 335-339 leave `direction` unassigned). -/
def isVerticalDir : Option Direction → Bool
  | some Direction.up => true
  | some Direction.down => true
  | _ => false

/-- `['up', 'left'].includes(direction)` with possibly-undefined direction. -/
def isStartDir : Option Direction → Bool
  | some Direction.up => true
  | some Direction.left => true
  | _ => false

/-- `['down', 'right'].includes(direction)` with possibly-undefined direction. -/
def isEndDir : Option Direction → Bool
  | some Direction.down => true
  | some Direction.right => true
  | _ => false

/-- The per-element test of comfyModal.ts lines 451-460: scroll position and
maximum scroll position are taken along the vertical axis for up/down and the
horizontal axis otherwise, and the element can still scroll if its range is
non-zero and it is not yet within `safetyDistance` of the relevant end. -/
def canStillScrollInElement (e : Elem) (direction : Option Direction)
    (safetyDistance : Int) : Bool :=
  let scrollPos := if isVerticalDir direction then e.scrollTop else e.scrollLeft
  let maxScrollPos :=
    if isVerticalDir direction then e.scrollHeight - e.clientHeight
    else e.scrollWidth - e.clientWidth
  decide (maxScrollPos ≠ 0) &&
    ((isStartDir direction && decide (scrollPos > 0 + safetyDistance)) ||
     (isEndDir direction && decide (scrollPos < maxScrollPos - safetyDistance)))

/-- comfyModal.ts lines 435-468: walk up from the event target; return `false`
when a BODY node is reached before the lockscreen; otherwise test every element
of the collected hierarchy. `none` models the JS crash when the chain runs out
of parents before reaching either. -/
def canStillScrollWithinLockscreen (chain : List Elem)
    (direction : Option Direction) (safetyDistance : Int) : Option Bool :=
  match collectHierarchy [] chain with
  | WalkResult.ranOut => none
  | WalkResult.reachedBody _ => some false
  | WalkResult.foundLockscreen hierarchy =>
      some (hierarchy.any (fun e => canStillScrollInElement e direction safetyDistance))

/-- Direction derivation of comfyModal.ts lines 335-339: four independent `if`
statements reassigning `direction`, so a later matching condition overrides an
earlier one, and `direction` stays `undefined` (`none`) when both deltas are 0. -/
def wheelDirection (deltaX deltaY : Int) : Option Direction :=
  let d : Option Direction := none
  let d := if deltaY < 0 then some Direction.up else d
  let d := if deltaY > 0 then some Direction.down else d
  let d := if deltaX < 0 then some Direction.left else d
  let d := if deltaX > 0 then some Direction.right else d
  d

/-- comfyModal.ts lines 334-344: the wheel listener. Returns whether
`preventDefault` is called (`none` when the chain walk crashes). -/
def lockscreenWheelListener (chain : List Elem) (deltaX deltaY : Int) : Option Bool :=
  (canStillScrollWithinLockscreen chain (wheelDirection deltaX deltaY) 5).map
    (fun can => !can)

/-- The two module-level touch-tracking variables `lastTouchCoords` and
`touchScrollAxis` (comfyModal.ts lines 42-43); both start out `null`. -/
structure TouchState where
  lastTouchCoords : Option (Int × Int)
  touchScrollAxis : Option Axis
deriving DecidableEq, Repr

/-- comfyModal.ts lines 346-349: record the touch coordinates and reset the
locked axis to `null`, ignoring whatever state was there before. -/
def lockscreenTouchStartListener (clientX clientY : Int) : TouchState :=
  { lastTouchCoords := some (clientX, clientY), touchScrollAxis := none }

/-- comfyModal.ts lines 351-381: the touch-move listener. Returns the updated
touch state together with whether `preventDefault` is called; the `Option` is
`none` when the JS would crash (no touch start seen, so `lastTouchCoords` is
`null`, or the chain walk runs out of parents). In the crash-during-walk case
the axis lock has already been written but `lastTouchCoords` has not, matching
the statement order in the source. In the axis-mismatch branch the listener
returns early, before `lastTouchCoords` is updated and without consulting the
scroll chain. -/
def lockscreenTouchMoveListener (ts : TouchState) (chain : List Elem)
    (clientX clientY : Int) : TouchState × Option Bool :=
  match ts.lastTouchCoords with
  | none => (ts, none)
  | some (lx, ly) =>
      let dx := clientX - lx
      let dy := clientY - ly
      let axis := if |dy| > |dx| then Axis.y else Axis.x
      let locked := match ts.touchScrollAxis with
        | none => axis
        | some a => a
      let ts1 : TouchState := { ts with touchScrollAxis := some locked }
      if axis ≠ locked then (ts1, some true)
      else
        let direction :=
          if locked = Axis.x then (if dx ≥ 0 then Direction.left else Direction.right)
          else (if dy ≥ 0 then Direction.up else Direction.down)
        match canStillScrollWithinLockscreen chain (some direction) 5 with
        | none => (ts1, none)
        | some can =>
            ({ ts1 with lastTouchCoords := some (clientX, clientY) }, some (!can))

/-- The per-element "can still scroll" predicate transcribed from the spec's
words (spec.md section 4.3 step 4, safety margin 5), for comparison with the
source's `canStillScrollInElement`: non-zero scrollable range AND (direction
toward-start and offset greater than the start margin, or direction toward-end
and offset less than end-of-range minus the end margin). -/
def specCanStillScroll (e : Elem) (d : Direction) : Bool :=
  let offset := match d with
    | Direction.up => e.scrollTop
    | Direction.down => e.scrollTop
    | Direction.left => e.scrollLeft
    | Direction.right => e.scrollLeft
  let range := match d with
    | Direction.up => e.scrollHeight - e.clientHeight
    | Direction.down => e.scrollHeight - e.clientHeight
    | Direction.left => e.scrollWidth - e.clientWidth
    | Direction.right => e.scrollWidth - e.clientWidth
  decide (range ≠ 0) &&
    (((d = Direction.up || d = Direction.left) && decide (offset > 5)) ||
     ((d = Direction.down || d = Direction.right) && decide (offset < range - 5)))

/-- The `multiModalBehaviour` option (comfyModalOptions.ts): what opening a new
modal does to already-open ones. -/
inductive MMB where
  | onTop
  | exclusive
  | exclusiveInContainer
deriving DecidableEq, Repr

/-- One entry of the `openedModals` registry (the `ModalData` interface,
comfyModal.ts lines 3-28), restricted to the fields the lifecycle logic reads.
`contentId` is the identity of the `modalContent` HTMLElement (content handles
are compared with `includes`, i.e. by identity) and `container` the identity of
the host container element. -/
structure MRec where
  id : Nat
  contentId : Nat
  container : Nat
  zIndex : Int
  isOpened : Bool
  isClosing : Bool
  closeIsQueued : Bool
deriving DecidableEq, Repr

/-- Observable lifecycle events: resolution of the `wasOpened` promise with the
content handle, the start of the exit phase (the synchronous prefix of
`closeModalObject` past its guards: `isClosing` set, pre-leave callback, leave
animations started), and resolution of the `wasClosed` promise. -/
inductive Ev where
  | openedResolved (id : Nat)
  | exitStarted (id : Nat)
  | closedResolved (id : Nat)
deriving DecidableEq, Repr

/-- The synchronous prefix of `closeModalObject` (comfyModal.ts lines 169-188,
up to the first `await`): a record already closing is left alone; a record not
yet fully opened only gets its close queued; otherwise `isClosing` is set and
the exit phase starts. -/
def closeModalObject (r : MRec) : MRec × List Ev :=
  if r.isClosing then (r, [])
  else if !r.isOpened then ({ r with closeIsQueued := true }, [])
  else ({ r with isClosing := true }, [Ev.exitStarted r.id])

/-- The continuation inside `modalOpenedPromise` after both entry animations
settle (comfyModal.ts lines 125-134): set `isOpened`, resolve the opened
promise, then run `closeModalObject` if a close was queued meanwhile. -/
def entryAnimationsSettled (r : MRec) : MRec × List Ev :=
  let r1 : MRec := { r with isOpened := true }
  if r1.closeIsQueued then
    let p := closeModalObject r1
    (p.1, Ev.openedResolved r.id :: p.2)
  else (r1, [Ev.openedResolved r.id])

/-- The continuation of `closeModalObject` after both leave animations settle
(comfyModal.ts lines 189-198), at record level: the closed promise resolves
with the (now detached) content handle. Registry removal is modelled at state
level by `exitFinishStep`. -/
def closeModalObjectFinish (r : MRec) : MRec × List Ev :=
  (r, [Ev.closedResolved r.id])

/-- The module-level mutable state: `modalCounter` and the `openedModals`
registry (comfyModal.ts lines 38-39). The registry is kept as a list in
insertion order; since ids are assigned from the increasing counter and JS
objects iterate integer-like keys in ascending order, insertion order and
`Object.values` order coincide. -/
structure GState where
  modalCounter : Nat
  openedModals : List MRec
deriving DecidableEq, Repr

/-- The initial module state: counter 0, empty registry. -/
def initState : GState := { modalCounter := 0, openedModals := [] }

/-- `Math.max(...modalsInSameContainer.map(m => m.zIndex))` over a list of
records. The `[]` case is unreachable under the `length` guard in `openModal`
(JS `Math.max()` of nothing is `-Infinity`); the value returned for it here is
irrelevant. -/
def maxZIndex : List MRec → Int
  | [] => 0
  | r :: rest => rest.foldl (fun acc m => max acc m.zIndex) r.zIndex

/-- The zIndex computation of comfyModal.ts lines 53-54: one more than the
maximum zIndex among registered records sharing the container, or 1 if none
share it. -/
def assignZIndex (modals : List MRec) (container : Nat) : Int :=
  let sameC := modals.filter (fun r => r.container == container)
  if sameC.isEmpty then 1 else maxZIndex sameC + 1

/-- The `for...of` loop closing every record (comfyModal.ts lines 88-90 and
161-163): apply the synchronous prefix of `closeModalObject` to each record in
registry order, concatenating the emitted events. -/
def closeAllRecs : List MRec → List MRec × List Ev
  | [] => ([], [])
  | r :: rest =>
      let p := closeModalObject r
      let q := closeAllRecs rest
      (p.1 :: q.1, p.2 ++ q.2)

/-- The `for...of` loop over `modalsInSameContainer` (comfyModal.ts lines
92-94): records in the given container are driven through `closeModalObject`,
all others are untouched. -/
def closeRecsInContainer (container : Nat) : List MRec → List MRec × List Ev
  | [] => ([], [])
  | r :: rest =>
      let q := closeRecsInContainer container rest
      if r.container == container then
        let p := closeModalObject r
        (p.1 :: q.1, p.2 ++ q.2)
      else (r :: q.1, q.2)

/-- `openModal` (comfyModal.ts lines 52-148), restricted to its registry
effects. Order as in the source: the zIndex is computed from the pre-existing
registry (line 53-54), the counter is incremented by `modalCounter++` (line 56)
BEFORE the duplicate-content sanity check (lines 81-84), the multi-modal policy
closes run before registration (lines 87-95), and the new record is registered
last (line 97). Returns the new state, the receipt id (`none` when the sanity
check rejects the call) and the events emitted by policy-driven closes. -/
def openModal (s : GState) (contentId : Nat) (mmb : MMB) (container : Nat) :
    GState × Option Nat × List Ev :=
  let zIndex := assignZIndex s.openedModals container
  let id := s.modalCounter
  if s.openedModals.any (fun r => r.contentId == contentId) then
    ({ s with modalCounter := id + 1 }, none, [])
  else
    let closed : List MRec × List Ev :=
      match mmb with
      | MMB.exclusive => closeAllRecs s.openedModals
      | MMB.exclusiveInContainer => closeRecsInContainer container s.openedModals
      | MMB.onTop => (s.openedModals, [])
    let newRec : MRec :=
      { id := id, contentId := contentId, container := container, zIndex := zIndex,
        isOpened := false, isClosing := false, closeIsQueued := false }
    ({ modalCounter := id + 1, openedModals := closed.1 ++ [newRec] }, some id, closed.2)

/-- `closeModal(id)` (comfyModal.ts lines 150-158): find the record by id
(no-op when absent) and run the synchronous prefix of `closeModalObject` on it,
writing the updated record back into the registry. -/
def closeModal (s : GState) (id : Nat) : GState × List Ev :=
  match s.openedModals.find? (fun r => r.id == id) with
  | none => (s, [])
  | some r =>
      let p := closeModalObject r
      ({ s with
          openedModals := s.openedModals.map (fun x => if x.id == id then p.1 else x) },
        p.2)

/-- `closeAllModals()` (comfyModal.ts lines 160-164). -/
def closeAllModals (s : GState) : GState × List Ev :=
  let p := closeAllRecs s.openedModals
  ({ s with openedModals := p.1 }, p.2)

/-- State-level delivery of the entry-animations-settled continuation for the
record with the given id. The continuation belongs to one specific open call,
so it fires at most once per record (guarded here by `isOpened`, which only
this continuation sets). -/
def entrySettleStep (s : GState) (id : Nat) : GState × List Ev :=
  match s.openedModals.find? (fun r => r.id == id) with
  | none => (s, [])
  | some r =>
      if r.isOpened then (s, [])
      else
        let p := entryAnimationsSettled r
        ({ s with
            openedModals := s.openedModals.map (fun x => if x.id == id then p.1 else x) },
          p.2)

/-- State-level delivery of the leave-animations-settled continuation of
`closeModalObject` (comfyModal.ts lines 189-198): detach listeners, remove the
lockscreen, `delete openedModals[modal.id]`, resolve the closed promise. The
continuation only exists once the exit phase has started, hence the `isClosing`
guard. -/
def exitFinishStep (s : GState) (id : Nat) : GState × List Ev :=
  match s.openedModals.find? (fun r => r.id == id) with
  | none => (s, [])
  | some r =>
      if r.isClosing then
        ({ s with openedModals := s.openedModals.filter (fun x => !(x.id == id)) },
          [Ev.closedResolved id])
      else (s, [])

/-- An externally schedulable step: a caller-visible API call, or the delivery
of one of the two pending animation-settled continuations. -/
inductive Op where
  | openOp (contentId : Nat) (mmb : MMB) (container : Nat)
  | closeOp (id : Nat)
  | closeAllOp
  | entrySettleOp (id : Nat)
  | exitFinishOp (id : Nat)
deriving DecidableEq, Repr

/-- Execute one step; the `Option Nat` is the receipt id when the step was a
successful `openModal`. -/
def execOp (s : GState) : Op → GState × Option Nat
  | Op.openOp c m cont =>
      let p := openModal s c m cont
      (p.1, p.2.1)
  | Op.closeOp id => ((closeModal s id).1, none)
  | Op.closeAllOp => ((closeAllModals s).1, none)
  | Op.entrySettleOp id => ((entrySettleStep s id).1, none)
  | Op.exitFinishOp id => ((exitFinishStep s id).1, none)

/-- Execute a sequence of steps, collecting the receipt ids in call order. -/
def execOps (s : GState) : List Op → GState × List Nat
  | [] => (s, [])
  | op :: rest =>
      let p := execOp s op
      let q := execOps p.1 rest
      (q.1, p.2.toList ++ q.2)

/-- A record on which a close has taken effect: it is either in its exit phase
or has its close queued for the end of its entry phase. -/
def closeRequested (r : MRec) : Bool := r.isClosing || r.closeIsQueued

/-- The zIndex ordering invariant: every registered id is below the counter,
and among records sharing a container, the record created later (larger id)
has the strictly larger zIndex. -/
def ZOrderInv (s : GState) : Prop :=
  (∀ r ∈ s.openedModals, r.id < s.modalCounter) ∧
  (∀ r1 ∈ s.openedModals, ∀ r2 ∈ s.openedModals,
    r1.container = r2.container → r1.id < r2.id → r1.zIndex < r2.zIndex)

/-- A concrete sample element: the document body. -/
def bodyElem : Elem :=
  { isBody := true, isLockscreen := false, scrollTop := 100, scrollLeft := 0,
    scrollHeight := 900, clientHeight := 600, scrollWidth := 0, clientWidth := 0 }

/-- A concrete sample element: a lockscreen with remaining scroll range. -/
def lockscreenElem : Elem :=
  { isBody := false, isLockscreen := true, scrollTop := 50, scrollLeft := 0,
    scrollHeight := 900, clientHeight := 600, scrollWidth := 0, clientWidth := 0 }

/-- A concrete registered record used by witnesses and counterexamples. -/
def sampleRec : MRec :=
  { id := 0, contentId := 7, container := 3, zIndex := 1,
    isOpened := true, isClosing := false, closeIsQueued := false }

/-- A concrete module state holding `sampleRec`. -/
def sampleState : GState := { modalCounter := 1, openedModals := [sampleRec] }

/-- A concrete lockscreen element scrolled to exactly the safety margin. -/
def boundaryElem : Elem :=
  { isBody := false, isLockscreen := true, scrollTop := 5, scrollLeft := 0,
    scrollHeight := 900, clientHeight := 600, scrollWidth := 0, clientWidth := 0 }

/-- A concrete record still in its entry phase (entry animations pending). -/
def openingRec : MRec :=
  { id := 5, contentId := 7, container := 3, zIndex := 1,
    isOpened := false, isClosing := false, closeIsQueued := false }

/-! ## Theorems -/

/-- With an undefined direction (wheel event with both deltas zero), no element
passes the per-element scroll test: both direction-class checks are false. -/
theorem canStillScrollInElement_none (e : Elem) (s : Int) :
    canStillScrollInElement e none s = false := by
  simp [canStillScrollInElement, isStartDir, isEndDir]

/-- If some element of the chain is a BODY or the lockscreen, the upward walk
terminates (it never falls off the end of the chain). -/
theorem collectHierarchy_ne_ranOut {chain : List Elem}
    (h : chain.any (fun e => e.isBody || e.isLockscreen) = true) :
    ∀ acc, collectHierarchy acc chain ≠ WalkResult.ranOut := by
  induction chain with
  | nil => simp at h
  | cons e rest ih =>
      intro acc
      simp only [collectHierarchy]
      by_cases hb : e.isBody
      · simp [hb]
      · by_cases hl : e.isLockscreen
        · simp [hb, hl]
        · simp only [hb, hl, if_false, Bool.false_eq_true]
          apply ih
          simp only [List.any_cons, hb, hl, Bool.or_self, Bool.false_or] at h
          exact h

/-- The per-element test of the source coincides with the spec's wording of it
whenever the direction is defined: non-zero range and not within the safety
margin of the relevant end. -/
theorem canStillScroll_eq_spec (e : Elem) (d : Direction) :
    canStillScrollInElement e (some d) 5 = specCanStillScroll e d := by
  cases d <;>
    simp [canStillScrollInElement, specCanStillScroll, isVerticalDir, isStartDir,
      isEndDir]

/-- C1 (amended): when the upward chain-walk reaches a BODY node before finding
the modal's lockscreen, the resolver treats the walk as "cannot scroll", so the
wheel listener DOES suppress the event (preventDefault IS called), for every
wheel delta. -/
theorem C1_reachedBody_suppresses (chain hier : List Elem) (deltaX deltaY : Int)
    (h : collectHierarchy [] chain = WalkResult.reachedBody hier) :
    lockscreenWheelListener chain deltaX deltaY = some true := by
  simp [lockscreenWheelListener, canStillScrollWithinLockscreen, h]

/-- C1 counterexample: for the concrete chain consisting of a single BODY node
and a wheel event scrolling up (deltaY below 0), the walk reaches the document
root before the backdrop, yet the event IS suppressed: the listener calls
preventDefault, contradicting the claim that it is not suppressed. -/
theorem C1_counterexample :
    collectHierarchy [] [bodyElem] = WalkResult.reachedBody [bodyElem] ∧
    lockscreenWheelListener [bodyElem] 0 (-1) ≠ some false ∧
    lockscreenWheelListener [bodyElem] 0 (-1) = some true := by
  refine ⟨by decide, by decide, by decide⟩

/-- C1 witness: the amended theorem applied to the single-BODY chain. -/
theorem C1_witness :
    collectHierarchy [] [bodyElem] = WalkResult.reachedBody [bodyElem] ∧
    lockscreenWheelListener [bodyElem] 0 (-1) = some true :=
  ⟨by decide, C1_reachedBody_suppresses [bodyElem] [bodyElem] 0 (-1) (by decide)⟩

/-- C2: for directional events whose chain-walk reaches the lockscreen:
(1) the source's per-element test equals the spec's "can still scroll"
predicate (non-zero range, and offset strictly beyond the safety margin 5 from
the relevant end); (2) the resolver's verdict is the disjunction of the
per-element predicate over the collected hierarchy; (3) the wheel event is not
suppressed if and only if some element of the hierarchy can still scroll in the
derived direction; (4) boundary: an offset exactly at 0 + safetyMargin counts
as "cannot scroll further up". -/
theorem C2_directional_suppression :
    (∀ (e : Elem) (d : Direction),
        canStillScrollInElement e (some d) 5 = specCanStillScroll e d) ∧
    (∀ (chain hier : List Elem) (d : Direction),
        collectHierarchy [] chain = WalkResult.foundLockscreen hier →
        canStillScrollWithinLockscreen chain (some d) 5 =
          some (hier.any (fun e => specCanStillScroll e d))) ∧
    (∀ (chain hier : List Elem) (deltaX deltaY : Int) (d : Direction),
        collectHierarchy [] chain = WalkResult.foundLockscreen hier →
        wheelDirection deltaX deltaY = some d →
        (lockscreenWheelListener chain deltaX deltaY = some false ↔
          ∃ e ∈ hier, specCanStillScroll e d = true)) ∧
    (∀ e : Elem, e.scrollTop = 5 →
        canStillScrollInElement e (some Direction.up) 5 = false) := by
  have hspec := canStillScroll_eq_spec
  have hany : ∀ (hier : List Elem) (d : Direction),
      (hier.any fun e => canStillScrollInElement e (some d) 5) =
        hier.any fun e => specCanStillScroll e d := by
    intro hier d
    induction hier with
    | nil => rfl
    | cons x xs ih => simp [List.any_cons, hspec x d, ih]
  have hwalk : ∀ (chain hier : List Elem) (d : Direction),
      collectHierarchy [] chain = WalkResult.foundLockscreen hier →
      canStillScrollWithinLockscreen chain (some d) 5 =
        some (hier.any (fun e => specCanStillScroll e d)) := by
    intro chain hier d h
    simp only [canStillScrollWithinLockscreen, h, hany]
  refine ⟨hspec, hwalk, ?_, ?_⟩
  · intro chain hier deltaX deltaY d h hdir
    simp only [lockscreenWheelListener, hdir, hwalk chain hier d h, Option.map_some]
    constructor
    · intro hfalse
      have : hier.any (fun e => specCanStillScroll e d) = true := by
        by_contra hne
        simp only [Bool.not_eq_true] at hne
        simp [hne] at hfalse
      simpa using List.any_eq_true.mp this
    · intro hex
      have : hier.any (fun e => specCanStillScroll e d) = true :=
        List.any_eq_true.mpr (by simpa using hex)
      simp [this]
  · intro e h
    simp [canStillScrollInElement, isVerticalDir, isStartDir, isEndDir, h]

/-- C2 witness: the four parts of the theorem applied at concrete inputs (a
single-lockscreen chain, direction down derived from deltaY above 0, and the
boundary element scrolled to exactly the safety margin). -/
theorem C2_witness :
    (canStillScrollInElement lockscreenElem (some Direction.down) 5 =
      specCanStillScroll lockscreenElem Direction.down) ∧
    (canStillScrollWithinLockscreen [lockscreenElem] (some Direction.down) 5 =
      some ([lockscreenElem].any (fun e => specCanStillScroll e Direction.down))) ∧
    (lockscreenWheelListener [lockscreenElem] 0 1 = some false ↔
      ∃ e ∈ [lockscreenElem], specCanStillScroll e Direction.down = true) ∧
    canStillScrollInElement boundaryElem (some Direction.up) 5 = false :=
  ⟨C2_directional_suppression.1 lockscreenElem Direction.down,
   C2_directional_suppression.2.1 [lockscreenElem] [lockscreenElem] Direction.down
     (by decide),
   C2_directional_suppression.2.2.1 [lockscreenElem] [lockscreenElem] 0 1
     Direction.down (by decide) (by decide),
   C2_directional_suppression.2.2.2 boundaryElem (by decide)⟩

/-- C10: a wheel event with both deltas zero delivered inside the lockscreen
(its chain contains the lockscreen or a BODY node, so the walk terminates)
derives no direction, hence no element passes the directional test and the
listener always calls preventDefault, whatever the scroll positions. -/
theorem C10_zero_delta_wheel_suppressed (chain : List Elem)
    (h : chain.any (fun e => e.isBody || e.isLockscreen) = true) :
    lockscreenWheelListener chain 0 0 = some true := by
  have hdir : wheelDirection 0 0 = none := rfl
  simp only [lockscreenWheelListener, hdir]
  rcases hw : collectHierarchy [] chain with hier | hier
  · simp [canStillScrollWithinLockscreen, hw, canStillScrollInElement_none,
      List.any_eq_false]
  · simp [canStillScrollWithinLockscreen, hw]
  · exact absurd hw (collectHierarchy_ne_ranOut h [])

/-- C10 witness: the theorem applied to the single-lockscreen chain, whose
lockscreen still has 245 device pixels of remaining vertical range. -/
theorem C10_witness :
    ([lockscreenElem].any (fun e => e.isBody || e.isLockscreen) = true) ∧
    lockscreenWheelListener [lockscreenElem] 0 0 = some true :=
  ⟨by decide, C10_zero_delta_wheel_suppressed [lockscreenElem] (by decide)⟩

/-- C9: touch handling. (1) Each touchstart records the touch coordinate and
resets the locked axis to none. (2) The first touchmove after a touchstart
locks the axis to whichever axis has the strictly larger absolute delta from
the touchstart coordinate, whatever the chain. (3) Once locked, any touchmove
whose dominant axis differs from the lock is suppressed (preventDefault)
unconditionally, with state unchanged and without consulting the scroll
chain: the outcome is the same for every chain. -/
theorem C9_touch_axis_lock :
    (∀ clientX clientY : Int,
        lockscreenTouchStartListener clientX clientY =
          { lastTouchCoords := some (clientX, clientY), touchScrollAxis := none }) ∧
    (∀ (ts : TouchState) (chain : List Elem) (lx ly tx ty : Int),
        ts.lastTouchCoords = some (lx, ly) → ts.touchScrollAxis = none →
        (|ty - ly| > |tx - lx| →
          (lockscreenTouchMoveListener ts chain tx ty).1.touchScrollAxis =
            some Axis.y) ∧
        (|tx - lx| > |ty - ly| →
          (lockscreenTouchMoveListener ts chain tx ty).1.touchScrollAxis =
            some Axis.x)) ∧
    (∀ (ts : TouchState) (chain : List Elem) (lx ly tx ty : Int) (a : Axis),
        ts.lastTouchCoords = some (lx, ly) → ts.touchScrollAxis = some a →
        (if |ty - ly| > |tx - lx| then Axis.y else Axis.x) ≠ a →
        lockscreenTouchMoveListener ts chain tx ty = (ts, some true)) := by
  refine ⟨fun clientX clientY => rfl, ?_, ?_⟩
  · rintro ⟨ltc, tsa⟩ chain lx ly tx ty h1 h2
    simp only at h1 h2
    subst h1
    subst h2
    constructor
    · intro hgt
      simp only [lockscreenTouchMoveListener, hgt, if_pos]
      split <;> first | rfl | (split <;> rfl)
    · intro hgt
      have hnot : ¬ (|ty - ly| > |tx - lx|) := by omega
      simp only [lockscreenTouchMoveListener, hnot, if_neg, if_false]
      split <;> first | rfl | (split <;> rfl)
  · rintro ⟨ltc, tsa⟩ chain lx ly tx ty a h1 h2 hne
    simp only at h1 h2
    subst h1
    subst h2
    simp [lockscreenTouchMoveListener, hne]

/-- C9 witness: the three parts applied concretely: a touchstart at (10, 20);
a first move from (0, 0) to (1, 5) locking the y axis and one to (5, 1)
locking the x axis; and a y-dominant move under an x lock being suppressed. -/
theorem C9_witness :
    (lockscreenTouchStartListener 10 20 =
      { lastTouchCoords := some (10, 20), touchScrollAxis := none }) ∧
    ((lockscreenTouchMoveListener
        { lastTouchCoords := some (0, 0), touchScrollAxis := none }
        [lockscreenElem] 1 5).1.touchScrollAxis = some Axis.y) ∧
    ((lockscreenTouchMoveListener
        { lastTouchCoords := some (0, 0), touchScrollAxis := none }
        [lockscreenElem] 5 1).1.touchScrollAxis = some Axis.x) ∧
    (lockscreenTouchMoveListener
        { lastTouchCoords := some (0, 0), touchScrollAxis := some Axis.x }
        [lockscreenElem] 0 5 =
      ({ lastTouchCoords := some (0, 0), touchScrollAxis := some Axis.x },
        some true)) :=
  ⟨C9_touch_axis_lock.1 10 20,
   (C9_touch_axis_lock.2.1
      { lastTouchCoords := some (0, 0), touchScrollAxis := none }
      [lockscreenElem] 0 0 1 5 rfl rfl).1 (by decide),
   (C9_touch_axis_lock.2.1
      { lastTouchCoords := some (0, 0), touchScrollAxis := none }
      [lockscreenElem] 0 0 5 1 rfl rfl).2 (by decide),
   C9_touch_axis_lock.2.2
      { lastTouchCoords := some (0, 0), touchScrollAxis := some Axis.x }
      [lockscreenElem] 0 0 0 5 Axis.x rfl rfl (by decide)⟩

/-- C3: closing a record whose entry animations have not yet settled starts no
exit phase (no events are emitted); it only queues the close. When the entry
pair then settles, the opened promise resolves first and the exit phase starts
immediately afterwards, in the same step; once the exit animations settle, the
closed promise resolves. -/
theorem C3_close_during_opening (r : MRec)
    (hOpened : r.isOpened = false) (hClosing : r.isClosing = false) :
    (closeModalObject r).2 = [] ∧
    (closeModalObject r).1.closeIsQueued = true ∧
    (closeModalObject r).1.isClosing = false ∧
    (entryAnimationsSettled (closeModalObject r).1).2 =
      [Ev.openedResolved r.id, Ev.exitStarted r.id] ∧
    (entryAnimationsSettled (closeModalObject r).1).1.isClosing = true ∧
    (closeModalObjectFinish (entryAnimationsSettled (closeModalObject r).1).1).2 =
      [Ev.closedResolved r.id] := by
  simp [closeModalObject, entryAnimationsSettled, closeModalObjectFinish,
    hOpened, hClosing]

/-- C3 witness: the scenario run on a concrete freshly-created record. -/
theorem C3_witness :
    (closeModalObject openingRec).2 = [] ∧
    (closeModalObject openingRec).1.closeIsQueued = true ∧
    (closeModalObject openingRec).1.isClosing = false ∧
    (entryAnimationsSettled (closeModalObject openingRec).1).2 =
      [Ev.openedResolved openingRec.id, Ev.exitStarted openingRec.id] ∧
    (entryAnimationsSettled (closeModalObject openingRec).1).1.isClosing = true ∧
    (closeModalObjectFinish
        (entryAnimationsSettled (closeModalObject openingRec).1).1).2 =
      [Ev.closedResolved openingRec.id] :=
  C3_close_during_opening openingRec rfl rfl

/-- After a registry update writing `r'` (with `r'.id = id`) over the record
found for `id`, looking the id up again finds `r'`. -/
theorem find?_map_update (l : List MRec) (id : Nat) (r r' : MRec)
    (h : l.find? (fun x => x.id == id) = some r) (hid : r'.id = id) :
    (l.map (fun x => if x.id == id then r' else x)).find? (fun x => x.id == id) =
      some r' := by
  induction l with
  | nil => simp at h
  | cons x xs ih =>
      cases hx : x.id == id with
      | true =>
          simp only [List.map_cons, hx, if_true]
          have : (r'.id == id) = true := by simp [hid]
          simp [List.find?_cons, this]
      | false =>
          simp only [List.map_cons, hx, if_false, Bool.false_eq_true]
          rw [List.find?_cons_of_neg _ (by simp [hx])] at h
          rw [List.find?_cons_of_neg _ (by simp [hx])]
          exact ih h

/-- Writing the same record `r'` over the id twice is the same as writing it
once. -/
theorem map_update_idem (l : List MRec) (id : Nat) (r' : MRec) (hid : r'.id = id) :
    (l.map (fun x => if x.id == id then r' else x)).map
        (fun x => if x.id == id then r' else x) =
      l.map (fun x => if x.id == id then r' else x) := by
  induction l with
  | nil => rfl
  | cons x xs ih =>
      have hfx : (fun x => if x.id == id then r' else x)
          ((fun x => if x.id == id then r' else x) x) =
            (fun x => if x.id == id then r' else x) x := by
        by_cases hx : (x.id == id) = true
        · simp [hx, hid]
        · simp [hx]
      simp only [List.map_cons, hfx, ih]

/-- After removing the record with the given id from the registry, looking the
id up finds nothing. -/
theorem find?_filter_out (l : List MRec) (id : Nat) :
    (l.filter (fun x => !(x.id == id))).find? (fun x => x.id == id) = none := by
  rw [List.find?_eq_none]
  intro x hx
  have hmem := (List.mem_filter.mp hx).2
  simp only [Bool.not_eq_true'] at hmem
  simp [hmem]

/-- C4: closing is idempotent. Closing an id absent from the registry is a
no-op. For a registered, fully open, not-yet-closing record: the first close
starts exactly one exit phase; a second close before the exit animations settle
changes nothing and emits nothing; the exit-settled continuation resolves the
closed promise exactly once and removes the record; after removal both a
further close and a further exit-settled delivery are no-ops. -/
theorem C4_close_idempotent :
    (∀ (s : GState) (id : Nat),
        s.openedModals.find? (fun x => x.id == id) = none →
        closeModal s id = (s, [])) ∧
    (∀ (s : GState) (id : Nat) (r : MRec),
        s.openedModals.find? (fun x => x.id == id) = some r →
        r.isOpened = true → r.isClosing = false →
        (closeModal s id).2 = [Ev.exitStarted id] ∧
        closeModal (closeModal s id).1 id = ((closeModal s id).1, []) ∧
        (exitFinishStep (closeModal s id).1 id).2 = [Ev.closedResolved id] ∧
        closeModal (exitFinishStep (closeModal s id).1 id).1 id =
          ((exitFinishStep (closeModal s id).1 id).1, []) ∧
        exitFinishStep (exitFinishStep (closeModal s id).1 id).1 id =
          ((exitFinishStep (closeModal s id).1 id).1, [])) := by
  refine ⟨fun s id h => by simp [closeModal, h], ?_⟩
  intro s id r hfind hOp hCl
  obtain ⟨cnt, modals⟩ := s
  simp only at hfind
  have hrid : r.id = id := by
    have := List.find?_some hfind
    simpa using this
  have hclose : closeModalObject r =
      ({ r with isClosing := true }, [Ev.exitStarted id]) := by
    simp [closeModalObject, hOp, hCl, hrid]
  have hid' : ({ r with isClosing := true } : MRec).id = id := hrid
  have hfind1 : (modals.map
        (fun x => if x.id == id then { r with isClosing := true } else x)).find?
        (fun x => x.id == id) = some { r with isClosing := true } :=
    find?_map_update modals id r _ hfind hid'
  have hclose2 : closeModalObject { r with isClosing := true } =
      ({ r with isClosing := true }, []) := by
    simp [closeModalObject]
  have h1 : closeModal ⟨cnt, modals⟩ id =
      (⟨cnt, modals.map
          (fun x => if x.id == id then { r with isClosing := true } else x)⟩,
        [Ev.exitStarted id]) := by
    simp [closeModal, hfind, hclose]
  have h2 : closeModal
      ⟨cnt, modals.map
        (fun x => if x.id == id then { r with isClosing := true } else x)⟩ id =
      (⟨cnt, modals.map
          (fun x => if x.id == id then { r with isClosing := true } else x)⟩, []) := by
    simp only [closeModal, hfind1, hclose2]
    rw [map_update_idem modals id _ hid']
  have h3 : exitFinishStep
      ⟨cnt, modals.map
        (fun x => if x.id == id then { r with isClosing := true } else x)⟩ id =
      (⟨cnt, (modals.map
          (fun x => if x.id == id then { r with isClosing := true } else x)).filter
            (fun x => !(x.id == id))⟩,
        [Ev.closedResolved id]) := by
    simp only [exitFinishStep, hfind1]
    rfl
  have hfindnone : ((modals.map
      (fun x => if x.id == id then { r with isClosing := true } else x)).filter
        (fun x => !(x.id == id))).find? (fun x => x.id == id) = none :=
    find?_filter_out _ id
  have h4 : closeModal
      ⟨cnt, (modals.map
        (fun x => if x.id == id then { r with isClosing := true } else x)).filter
          (fun x => !(x.id == id))⟩ id =
      (⟨cnt, (modals.map
          (fun x => if x.id == id then { r with isClosing := true } else x)).filter
            (fun x => !(x.id == id))⟩, []) := by
    simp only [closeModal, hfindnone]
  have h5 : exitFinishStep
      ⟨cnt, (modals.map
        (fun x => if x.id == id then { r with isClosing := true } else x)).filter
          (fun x => !(x.id == id))⟩ id =
      (⟨cnt, (modals.map
          (fun x => if x.id == id then { r with isClosing := true } else x)).filter
            (fun x => !(x.id == id))⟩, []) := by
    simp only [exitFinishStep, hfindnone]
  refine ⟨?_, ?_, ?_, ?_, ?_⟩ <;> simp only [h1, h2, h3, h4, h5]

/-- C4 witness: the theorem's two parts at the concrete one-record state:
closing the unknown id 99 is a no-op, and the double-close scenario on the
registered open record with id 0. -/
theorem C4_witness :
    closeModal sampleState 99 = (sampleState, []) ∧
    ((closeModal sampleState 0).2 = [Ev.exitStarted 0] ∧
      closeModal (closeModal sampleState 0).1 0 = ((closeModal sampleState 0).1, []) ∧
      (exitFinishStep (closeModal sampleState 0).1 0).2 = [Ev.closedResolved 0] ∧
      closeModal (exitFinishStep (closeModal sampleState 0).1 0).1 0 =
        ((exitFinishStep (closeModal sampleState 0).1 0).1, []) ∧
      exitFinishStep (exitFinishStep (closeModal sampleState 0).1 0).1 0 =
        ((exitFinishStep (closeModal sampleState 0).1 0).1, [])) :=
  ⟨C4_close_idempotent.1 sampleState 99 (by decide),
   C4_close_idempotent.2 sampleState 0 sampleRec (by decide) rfl rfl⟩

/-- C6 (amended): when the content handle returned by the factory is already
attached to a registered record, `openModal` returns no receipt, emits no
events, performs no policy closes and leaves the registry and every existing
record unchanged — but the global id counter HAS already been incremented by
`modalCounter++` before the sanity check, so the counter is one higher and the
allocated id is skipped. -/
theorem C6_duplicate_content_rejected (s : GState) (contentId : Nat) (mmb : MMB)
    (container : Nat)
    (h : s.openedModals.any (fun r => r.contentId == contentId) = true) :
    openModal s contentId mmb container =
      ({ s with modalCounter := s.modalCounter + 1 }, none, []) := by
  simp [openModal, h]

/-- C6 counterexample: opening a modal whose content handle (7) is already the
content of the registered record leaves the registry untouched and returns no
receipt, but the global id counter changes from 1 to 2 — contradicting the
claim that the counter is left unchanged. -/
theorem C6_counterexample :
    (openModal sampleState 7 MMB.onTop 3).2.1 = none ∧
    (openModal sampleState 7 MMB.onTop 3).1.openedModals =
      sampleState.openedModals ∧
    (openModal sampleState 7 MMB.onTop 3).1.modalCounter ≠
      sampleState.modalCounter := by
  refine ⟨by decide, by decide, by decide⟩

/-- C6 witness: the amended theorem at the concrete duplicate-content call. -/
theorem C6_witness :
    openModal sampleState 7 MMB.onTop 3 =
      ({ sampleState with modalCounter := sampleState.modalCounter + 1 },
        none, []) :=
  C6_duplicate_content_rejected sampleState 7 MMB.onTop 3 (by decide)

/-- Whatever state a record is in, running it through (the synchronous prefix
of) `closeModalObject` leaves it with a close in effect: it is closing, or its
close is queued behind its entry phase. -/
theorem closeModalObject_requested (r : MRec) :
    closeRequested (closeModalObject r).1 = true := by
  cases h1 : r.isClosing <;> cases h2 : r.isOpened <;>
    simp [closeModalObject, closeRequested, h1, h2]

/-- The registry produced by the close-all loop is the pointwise image of
`closeModalObject`. -/
theorem closeAllRecs_fst (l : List MRec) :
    (closeAllRecs l).1 = l.map (fun r => (closeModalObject r).1) := by
  induction l with
  | nil => rfl
  | cons r rest ih => simp [closeAllRecs, ih]

/-- The registry produced by the close-in-container loop maps records in the
container through `closeModalObject` and keeps all others identical. -/
theorem closeRecsInContainer_fst (c : Nat) (l : List MRec) :
    (closeRecsInContainer c l).1 =
      l.map (fun r => if r.container == c then (closeModalObject r).1 else r) := by
  induction l with
  | nil => rfl
  | cons r rest ih =>
      cases hc : r.container == c with
      | true =>
          have hc' : r.container = c := by simpa using hc
          simp [closeRecsInContainer, hc, hc', ih]
      | false =>
          have hc' : ¬ r.container = c := by simpa using hc
          simp [closeRecsInContainer, hc, hc', ih]

/-- C5: the multi-modal policy runs before the new record is registered.
(1) Driving any record through `closeModalObject` leaves it close-requested.
(2) With `exclusive`, the resulting registry is every previously registered
record (in any container) driven through `closeModalObject`, followed by the
new record. (3) With `exclusiveInContainer`, exactly the records sharing the
target container are driven through `closeModalObject` and records in other
containers are untouched, followed by the new record. (4) Under either policy
the newly appended record itself is neither closing nor close-queued: it is
never closed by its own policy. -/
theorem C5_multimodal_policy :
    (∀ r : MRec, closeRequested (closeModalObject r).1 = true) ∧
    (∀ (s : GState) (contentId container : Nat),
        s.openedModals.any (fun r => r.contentId == contentId) = false →
        (openModal s contentId MMB.exclusive container).1.openedModals =
          s.openedModals.map (fun r => (closeModalObject r).1) ++
            [⟨s.modalCounter, contentId, container,
              assignZIndex s.openedModals container, false, false, false⟩]) ∧
    (∀ (s : GState) (contentId container : Nat),
        s.openedModals.any (fun r => r.contentId == contentId) = false →
        (openModal s contentId MMB.exclusiveInContainer container).1.openedModals =
          s.openedModals.map
              (fun r => if r.container == container then (closeModalObject r).1
                else r) ++
            [⟨s.modalCounter, contentId, container,
              assignZIndex s.openedModals container, false, false, false⟩]) ∧
    (∀ (s : GState) (contentId container : Nat) (mmb : MMB),
        s.openedModals.any (fun r => r.contentId == contentId) = false →
        (openModal s contentId mmb container).1.openedModals.getLast? =
          some ⟨s.modalCounter, contentId, container,
            assignZIndex s.openedModals container, false, false, false⟩) := by
  refine ⟨closeModalObject_requested, ?_, ?_, ?_⟩
  · intro s contentId container h
    simp [openModal, h, closeAllRecs_fst]
  · intro s contentId container h
    simp [openModal, h, closeRecsInContainer_fst]
  · intro s contentId container mmb h
    cases mmb <;> simp [openModal, h, List.getLast?_concat]

/-- C5 witness: the four parts applied concretely: closing the sample record
leaves it close-requested; opening content 8 with each policy over the
one-record registry (record in container 3, new modal in container 4) yields
the expected registry shapes and an un-close-requested new tail record. -/
theorem C5_witness :
    closeRequested (closeModalObject sampleRec).1 = true ∧
    (openModal sampleState 8 MMB.exclusive 4).1.openedModals =
      sampleState.openedModals.map (fun r => (closeModalObject r).1) ++
        [⟨1, 8, 4, assignZIndex sampleState.openedModals 4, false, false, false⟩] ∧
    (openModal sampleState 8 MMB.exclusiveInContainer 4).1.openedModals =
      sampleState.openedModals.map
          (fun r => if r.container == 4 then (closeModalObject r).1 else r) ++
        [⟨1, 8, 4, assignZIndex sampleState.openedModals 4, false, false, false⟩] ∧
    (openModal sampleState 8 MMB.onTop 4).1.openedModals.getLast? =
      some ⟨1, 8, 4, assignZIndex sampleState.openedModals 4, false, false, false⟩ :=
  ⟨C5_multimodal_policy.1 sampleRec,
   C5_multimodal_policy.2.1 sampleState 8 4 (by decide),
   C5_multimodal_policy.2.2.1 sampleState 8 4 (by decide),
   C5_multimodal_policy.2.2.2 sampleState 8 4 MMB.onTop (by decide)⟩

/-- `openModal` always advances the id counter by one, receipt or not: the
`modalCounter++` of line 56 runs before the duplicate-content sanity check. -/
theorem openModal_counter (s : GState) (c : Nat) (m : MMB) (cont : Nat) :
    (openModal s c m cont).1.modalCounter = s.modalCounter + 1 := by
  by_cases hd : s.openedModals.any (fun r => r.contentId == c) = true
  · simp [openModal, hd]
  · have hd' : s.openedModals.any (fun r => r.contentId == c) = false := by
      simpa using hd
    cases m <;> simp [openModal, hd']

/-- `closeModal` never touches the id counter. -/
theorem closeModal_counter (s : GState) (id : Nat) :
    (closeModal s id).1.modalCounter = s.modalCounter := by
  cases h : s.openedModals.find? (fun r => r.id == id) <;> simp [closeModal, h]

/-- `closeAllModals` never touches the id counter. -/
theorem closeAllModals_counter (s : GState) :
    (closeAllModals s).1.modalCounter = s.modalCounter := rfl

/-- The entry-settled continuation never touches the id counter. -/
theorem entrySettleStep_counter (s : GState) (id : Nat) :
    (entrySettleStep s id).1.modalCounter = s.modalCounter := by
  cases h : s.openedModals.find? (fun r => r.id == id) with
  | none => simp [entrySettleStep, h]
  | some r => cases hr : r.isOpened <;> simp [entrySettleStep, h, hr]

/-- The exit-settled continuation never touches the id counter. -/
theorem exitFinishStep_counter (s : GState) (id : Nat) :
    (exitFinishStep s id).1.modalCounter = s.modalCounter := by
  cases h : s.openedModals.find? (fun r => r.id == id) with
  | none => simp [exitFinishStep, h]
  | some r => cases hr : r.isClosing <;> simp [exitFinishStep, h, hr]

/-- No step ever decreases the id counter. -/
theorem execOp_counter_le (s : GState) (op : Op) :
    s.modalCounter ≤ (execOp s op).1.modalCounter := by
  cases op with
  | openOp c m cont => simp [execOp, openModal_counter]
  | closeOp id => simp [execOp, closeModal_counter]
  | closeAllOp => simp [execOp, closeAllModals_counter]
  | entrySettleOp id => simp [execOp, entrySettleStep_counter]
  | exitFinishOp id => simp [execOp, exitFinishStep_counter]

/-- A receipt id returned by a step is the pre-step counter value, and the
counter has then strictly advanced. -/
theorem execOp_assigned (s : GState) (op : Op) (i : Nat)
    (h : (execOp s op).2 = some i) :
    i = s.modalCounter ∧ (execOp s op).1.modalCounter = s.modalCounter + 1 := by
  cases op with
  | openOp c m cont =>
      refine ⟨?_, by simp [execOp, openModal_counter]⟩
      by_cases hd : s.openedModals.any (fun r => r.contentId == c) = true
      · simp [execOp, openModal, hd] at h
      · have hd' : s.openedModals.any (fun r => r.contentId == c) = false := by
          simpa using hd
        cases m <;> simp [execOp, openModal, hd'] at h <;> omega
  | closeOp id => simp [execOp] at h
  | closeAllOp => simp [execOp] at h
  | entrySettleOp id => simp [execOp] at h
  | exitFinishOp id => simp [execOp] at h

/-- The counter never decreases across a whole run. -/
theorem execOps_counter_le (ops : List Op) : ∀ s : GState,
    s.modalCounter ≤ (execOps s ops).1.modalCounter := by
  induction ops with
  | nil => intro s; exact le_refl _
  | cons op rest ih =>
      intro s
      simp only [execOps]
      exact le_trans (execOp_counter_le s op) (ih _)

/-- Every receipt id assigned during a run is at least the starting counter. -/
theorem execOps_ids_lower (ops : List Op) : ∀ (s : GState) (i : Nat),
    i ∈ (execOps s ops).2 → s.modalCounter ≤ i := by
  induction ops with
  | nil => intro s i h; simp [execOps] at h
  | cons op rest ih =>
      intro s i h
      simp only [execOps] at h
      rw [List.mem_append] at h
      rcases h with h | h
      · rcases ho : (execOp s op).2 with _ | j
        · rw [ho] at h; simp at h
        · rw [ho] at h
          simp at h
          subst h
          exact le_of_eq (execOp_assigned s op i ho).1.symm
      · have h2 := ih _ i h
        have h3 := execOp_counter_le s op
        omega

/-- Receipt ids are assigned in strictly increasing order from any state. -/
theorem execOps_ids_pairwise (ops : List Op) : ∀ s : GState,
    ((execOps s ops).2).Pairwise (· < ·) := by
  induction ops with
  | nil => intro s; simp [execOps]
  | cons op rest ih =>
      intro s
      simp only [execOps]
      rw [List.pairwise_append]
      refine ⟨?_, ih _, ?_⟩
      · rcases ho : (execOp s op).2 with _ | j <;> simp
      · intro a ha b hb
        rcases ho : (execOp s op).2 with _ | j
        · rw [ho] at ha; simp at ha
        · rw [ho] at ha
          simp at ha
          subst ha
          have hj := execOp_assigned s op a ho
          have hb' := execOps_ids_lower rest (execOp s op).1 b hb
          omega

/-- C7: over any sequence of steps starting from the initial module state, the
ids handed out on receipts are pairwise strictly increasing in call order — in
particular no id is ever reused for a later modal, even after an earlier record
is disposed. -/
theorem C7_ids_strictly_increasing :
    ∀ ops : List Op, ((execOps initState ops).2).Pairwise (· < ·) :=
  fun ops => execOps_ids_pairwise ops initState

/-- The starting accumulator is a lower bound of the running fold of `max` over
zIndexes. -/
theorem foldl_max_init (l : List MRec) (a : Int) :
    a ≤ l.foldl (fun acc m => max acc m.zIndex) a := by
  induction l generalizing a with
  | nil => simp
  | cons x xs ih =>
      simp only [List.foldl_cons]
      exact le_trans (le_max_left _ _) (ih _)

/-- Every member's zIndex is a lower bound of the running fold of `max`. -/
theorem foldl_max_mem (l : List MRec) (r : MRec) (h : r ∈ l) (a : Int) :
    r.zIndex ≤ l.foldl (fun acc m => max acc m.zIndex) a := by
  induction l generalizing a with
  | nil => simp at h
  | cons x xs ih =>
      simp only [List.foldl_cons]
      rcases List.mem_cons.mp h with h | h
      · subst h
        exact le_trans (le_max_right _ _) (foldl_max_init _ _)
      · exact ih h _

/-- `maxZIndex` bounds every member's zIndex, as `Math.max` does. -/
theorem le_maxZIndex (l : List MRec) (r : MRec) (h : r ∈ l) :
    r.zIndex ≤ maxZIndex l := by
  cases l with
  | nil => simp at h
  | cons x xs =>
      rcases List.mem_cons.mp h with h | h
      · subst h
        exact foldl_max_init xs _
      · exact foldl_max_mem xs r h _

/-- The running fold of `max` is the accumulator or is attained by a member. -/
theorem foldl_max_attained (xs : List MRec) : ∀ a : Int,
    xs.foldl (fun acc m => max acc m.zIndex) a = a ∨
      ∃ r ∈ xs, xs.foldl (fun acc m => max acc m.zIndex) a = r.zIndex := by
  induction xs with
  | nil => intro a; exact Or.inl rfl
  | cons x xs ih =>
      intro a
      simp only [List.foldl_cons]
      rcases ih (max a x.zIndex) with h | ⟨r, hr, h⟩
      · rcases le_total a x.zIndex with hle | hle
        · exact Or.inr ⟨x, List.mem_cons_self x xs, by rw [h, max_eq_right hle]⟩
        · exact Or.inl (by rw [h, max_eq_left hle])
      · exact Or.inr ⟨r, List.mem_cons_of_mem _ hr, h⟩

/-- On a nonempty list, `maxZIndex` is attained by some member. -/
theorem maxZIndex_attained (l : List MRec) (h : l ≠ []) :
    ∃ r ∈ l, maxZIndex l = r.zIndex := by
  cases l with
  | nil => exact absurd rfl h
  | cons x xs =>
      rcases foldl_max_attained xs x.zIndex with hx | ⟨r, hr, hx⟩
      · exact ⟨x, List.mem_cons_self x xs, hx⟩
      · exact ⟨r, List.mem_cons_of_mem _ hr, hx⟩

/-- The assigned zIndex strictly dominates every registered record sharing the
container. -/
theorem assignZIndex_gt (l : List MRec) (c : Nat) (r : MRec)
    (hm : r ∈ l) (hc : r.container = c) : r.zIndex < assignZIndex l c := by
  have hmem : r ∈ l.filter (fun x => x.container == c) :=
    List.mem_filter.mpr ⟨hm, by simp [hc]⟩
  have hne : (l.filter (fun x => x.container == c)).isEmpty = false := by
    cases hf : l.filter (fun x => x.container == c) with
    | nil => rw [hf] at hmem; simp at hmem
    | cons a as => simp [hf]
  have hle := le_maxZIndex _ r hmem
  simp only [assignZIndex, hne, Bool.false_eq_true, if_false]
  omega

/-- Transport the zIndex ordering invariant along a step whose counter does not
decrease and whose registry consists only of records agreeing in id, container
and zIndex with previously registered ones. -/
theorem zOrderInv_mono (s s' : GState)
    (hcnt : s.modalCounter ≤ s'.modalCounter)
    (hmem : ∀ r' ∈ s'.openedModals, ∃ r ∈ s.openedModals,
      r'.id = r.id ∧ r'.container = r.container ∧ r'.zIndex = r.zIndex)
    (h : ZOrderInv s) : ZOrderInv s' := by
  obtain ⟨h1, h2⟩ := h
  constructor
  · intro r' hr'
    obtain ⟨r, hr, hid, hrest⟩ := hmem r' hr'
    rw [hid]
    exact lt_of_lt_of_le (h1 r hr) hcnt
  · intro r1 hr1 r2 hr2 hc hid
    obtain ⟨a, ha, hida, hca, hza⟩ := hmem r1 hr1
    obtain ⟨b, hb, hidb, hcb, hzb⟩ := hmem r2 hr2
    rw [hza, hzb]
    refine h2 a ha b hb ?_ ?_
    · rw [← hca, ← hcb]; exact hc
    · rw [← hida, ← hidb]; exact hid

/-- `closeModalObject` only touches the three lifecycle flags: id, container
and zIndex are preserved. -/
theorem closeModalObject_fields (r : MRec) :
    (closeModalObject r).1.id = r.id ∧
      (closeModalObject r).1.container = r.container ∧
      (closeModalObject r).1.zIndex = r.zIndex := by
  cases h1 : r.isClosing <;> cases h2 : r.isOpened <;>
    simp [closeModalObject, h1, h2]

/-- The entry-settled continuation only touches the lifecycle flags: id,
container and zIndex are preserved. -/
theorem entryAnimationsSettled_fields (r : MRec) :
    (entryAnimationsSettled r).1.id = r.id ∧
      (entryAnimationsSettled r).1.container = r.container ∧
      (entryAnimationsSettled r).1.zIndex = r.zIndex := by
  cases hq : r.closeIsQueued <;> cases h1 : r.isClosing <;>
    simp [entryAnimationsSettled, closeModalObject, hq, h1]

/-- A member of the registry after an id-targeted update is the written record
or one of the original members. -/
theorem mem_map_update (l : List MRec) (id : Nat) (r' : MRec) (x' : MRec)
    (hx' : x' ∈ l.map (fun x => if x.id == id then r' else x)) :
    x' = r' ∨ x' ∈ l := by
  obtain ⟨x, hx, hfx⟩ := List.mem_map.mp hx'
  by_cases hxi : (x.id == id) = true
  · rw [if_pos hxi] at hfx
    exact Or.inl hfx.symm
  · rw [if_neg hxi] at hfx
    subst hfx
    exact Or.inr hx

/-- Appending a freshly allocated record (id = counter, zIndex computed by
`assignZIndex` over the pre-step registry) to a field-preserving image of the
registry, while advancing the counter, preserves the zIndex ordering
invariant. -/
theorem zOrderInv_open_aux (s : GState) (base : List MRec) (c cont : Nat)
    (hbase : ∀ r' ∈ base, ∃ r ∈ s.openedModals,
      r'.id = r.id ∧ r'.container = r.container ∧ r'.zIndex = r.zIndex)
    (h : ZOrderInv s) :
    ZOrderInv ⟨s.modalCounter + 1,
      base ++ [⟨s.modalCounter, c, cont, assignZIndex s.openedModals cont,
        false, false, false⟩]⟩ := by
  obtain ⟨h1, h2⟩ := h
  constructor
  · intro r' hr'
    simp only at hr' ⊢
    rcases List.mem_append.mp hr' with hb | hn
    · obtain ⟨r, hr, hid, hrest⟩ := hbase r' hb
      have := h1 r hr
      rw [hid]
      omega
    · simp at hn
      subst hn
      simp
  · intro r1 hr1 r2 hr2 hc hid
    simp only at hr1 hr2
    rcases List.mem_append.mp hr1 with hb1 | hn1 <;>
      rcases List.mem_append.mp hr2 with hb2 | hn2
    · obtain ⟨a, ha, hida, hca, hza⟩ := hbase r1 hb1
      obtain ⟨b, hb, hidb, hcb, hzb⟩ := hbase r2 hb2
      rw [hza, hzb]
      refine h2 a ha b hb ?_ ?_
      · rw [← hca, ← hcb]; exact hc
      · rw [← hida, ← hidb]; exact hid
    · simp at hn2
      subst hn2
      obtain ⟨a, ha, hida, hca, hza⟩ := hbase r1 hb1
      have hac : a.container = cont := by
        rw [← hca]
        simpa using hc
      rw [hza]
      simpa using assignZIndex_gt s.openedModals cont a ha hac
    · simp at hn1
      subst hn1
      obtain ⟨b, hb, hidb, hcb, hzb⟩ := hbase r2 hb2
      have hbc := h1 b hb
      simp only at hid
      rw [hidb] at hid
      omega
    · simp at hn1 hn2
      subst hn1
      subst hn2
      simp at hid

/-- Every step of the system preserves the zIndex ordering invariant. -/
theorem zOrderInv_execOp (s : GState) (op : Op) (h : ZOrderInv s) :
    ZOrderInv (execOp s op).1 := by
  cases op with
  | openOp c m cont =>
      by_cases hd : s.openedModals.any (fun r => r.contentId == c) = true
      · have hstate : (execOp s (Op.openOp c m cont)).1 =
            { s with modalCounter := s.modalCounter + 1 } := by
          simp [execOp, openModal, hd]
        rw [hstate]
        exact zOrderInv_mono s _ (Nat.le_succ _)
          (fun r' hr' => ⟨r', hr', rfl, rfl, rfl⟩) h
      · have hd' : s.openedModals.any (fun r => r.contentId == c) = false := by
          simpa using hd
        cases m with
        | onTop =>
            have hstate : (execOp s (Op.openOp c MMB.onTop cont)).1 =
                ⟨s.modalCounter + 1, s.openedModals ++
                  [⟨s.modalCounter, c, cont, assignZIndex s.openedModals cont,
                    false, false, false⟩]⟩ := by
              simp [execOp, openModal, hd']
            rw [hstate]
            exact zOrderInv_open_aux s _ c cont
              (fun r' hr' => ⟨r', hr', rfl, rfl, rfl⟩) h
        | exclusive =>
            have hstate : (execOp s (Op.openOp c MMB.exclusive cont)).1 =
                ⟨s.modalCounter + 1,
                  s.openedModals.map (fun r => (closeModalObject r).1) ++
                    [⟨s.modalCounter, c, cont, assignZIndex s.openedModals cont,
                      false, false, false⟩]⟩ := by
              simp [execOp, openModal, hd', closeAllRecs_fst]
            rw [hstate]
            refine zOrderInv_open_aux s _ c cont ?_ h
            intro r' hr'
            obtain ⟨x, hx, hfx⟩ := List.mem_map.mp hr'
            subst hfx
            obtain ⟨hi, hco, hz⟩ := closeModalObject_fields x
            exact ⟨x, hx, hi, hco, hz⟩
        | exclusiveInContainer =>
            have hstate : (execOp s (Op.openOp c MMB.exclusiveInContainer cont)).1 =
                ⟨s.modalCounter + 1,
                  s.openedModals.map
                    (fun r => if r.container == cont then (closeModalObject r).1
                      else r) ++
                    [⟨s.modalCounter, c, cont, assignZIndex s.openedModals cont,
                      false, false, false⟩]⟩ := by
              simp [execOp, openModal, hd', closeRecsInContainer_fst]
            rw [hstate]
            refine zOrderInv_open_aux s _ c cont ?_ h
            intro r' hr'
            obtain ⟨x, hx, hfx⟩ := List.mem_map.mp hr'
            by_cases hxc : (x.container == cont) = true
            · rw [if_pos hxc] at hfx
              subst hfx
              obtain ⟨hi, hco, hz⟩ := closeModalObject_fields x
              exact ⟨x, hx, hi, hco, hz⟩
            · rw [if_neg hxc] at hfx
              subst hfx
              exact ⟨x, hx, rfl, rfl, rfl⟩
  | closeOp id =>
      cases hf : s.openedModals.find? (fun r => r.id == id) with
      | none =>
          have hstate : (execOp s (Op.closeOp id)).1 = s := by
            simp [execOp, closeModal, hf]
          rw [hstate]
          exact h
      | some r =>
          have hmem := List.mem_of_find?_eq_some hf
          have hstate : (execOp s (Op.closeOp id)).1 =
              ⟨s.modalCounter, s.openedModals.map
                (fun x => if x.id == id then (closeModalObject r).1 else x)⟩ := by
            simp [execOp, closeModal, hf]
          rw [hstate]
          refine zOrderInv_mono s _ (le_refl _) ?_ h
          intro r' hr'
          rcases mem_map_update _ _ _ _ hr' with hEq | hMem
          · subst hEq
            obtain ⟨hi, hco, hz⟩ := closeModalObject_fields r
            exact ⟨r, hmem, hi, hco, hz⟩
          · exact ⟨r', hMem, rfl, rfl, rfl⟩
  | closeAllOp =>
      have hstate : (execOp s Op.closeAllOp).1 =
          ⟨s.modalCounter, s.openedModals.map (fun r => (closeModalObject r).1)⟩ := by
        simp [execOp, closeAllModals, closeAllRecs_fst]
      rw [hstate]
      refine zOrderInv_mono s _ (le_refl _) ?_ h
      intro r' hr'
      obtain ⟨x, hx, hfx⟩ := List.mem_map.mp hr'
      subst hfx
      obtain ⟨hi, hco, hz⟩ := closeModalObject_fields x
      exact ⟨x, hx, hi, hco, hz⟩
  | entrySettleOp id =>
      cases hf : s.openedModals.find? (fun r => r.id == id) with
      | none =>
          have hstate : (execOp s (Op.entrySettleOp id)).1 = s := by
            simp [execOp, entrySettleStep, hf]
          rw [hstate]
          exact h
      | some r =>
          cases hr : r.isOpened with
          | true =>
              have hstate : (execOp s (Op.entrySettleOp id)).1 = s := by
                simp [execOp, entrySettleStep, hf, hr]
              rw [hstate]
              exact h
          | false =>
              have hmem := List.mem_of_find?_eq_some hf
              have hstate : (execOp s (Op.entrySettleOp id)).1 =
                  ⟨s.modalCounter, s.openedModals.map
                    (fun x => if x.id == id then (entryAnimationsSettled r).1
                      else x)⟩ := by
                simp [execOp, entrySettleStep, hf, hr]
              rw [hstate]
              refine zOrderInv_mono s _ (le_refl _) ?_ h
              intro r' hr'
              rcases mem_map_update _ _ _ _ hr' with hEq | hMem
              · subst hEq
                obtain ⟨hi, hco, hz⟩ := entryAnimationsSettled_fields r
                exact ⟨r, hmem, hi, hco, hz⟩
              · exact ⟨r', hMem, rfl, rfl, rfl⟩
  | exitFinishOp id =>
      cases hf : s.openedModals.find? (fun r => r.id == id) with
      | none =>
          have hstate : (execOp s (Op.exitFinishOp id)).1 = s := by
            simp [execOp, exitFinishStep, hf]
          rw [hstate]
          exact h
      | some r =>
          cases hr : r.isClosing with
          | false =>
              have hstate : (execOp s (Op.exitFinishOp id)).1 = s := by
                simp [execOp, exitFinishStep, hf, hr]
              rw [hstate]
              exact h
          | true =>
              have hstate : (execOp s (Op.exitFinishOp id)).1 =
                  ⟨s.modalCounter, s.openedModals.filter
                    (fun x => !(x.id == id))⟩ := by
                simp [execOp, exitFinishStep, hf, hr]
              rw [hstate]
              refine zOrderInv_mono s _ (le_refl _) ?_ h
              intro r' hr'
              exact ⟨r', (List.mem_filter.mp hr').1, rfl, rfl, rfl⟩

/-- The zIndex ordering invariant holds after any run of steps. -/
theorem zOrderInv_execOps (ops : List Op) : ∀ s : GState,
    ZOrderInv s → ZOrderInv (execOps s ops).1 := by
  induction ops with
  | nil => intro s h; exact h
  | cons op rest ih =>
      intro s h
      simp only [execOps]
      exact ih _ (zOrderInv_execOp s op h)

/-- The initial module state satisfies the zIndex ordering invariant. -/
theorem zOrderInv_init : ZOrderInv initState := by
  refine ⟨?_, ?_⟩ <;> intro r hr <;> simp [initState] at hr

/-- C8: zIndex stacking. (1) The zIndex assigned for a container is 1 when no
registered record shares the container, and otherwise is exactly one more than
the zIndex of some sharing record while strictly dominating every sharing
record — i.e. max(zIndex of records sharing the container) + 1. (2) In every
state reachable from the initial state, among registered records sharing a
container, the record created later (larger id) has the strictly larger
zIndex. (3) The assignment depends only on the registered records sharing the
target container, so assignments in different containers are independent. -/
theorem C8_zIndex_stacking :
    (∀ (l : List MRec) (c : Nat),
        (l.filter (fun x => x.container == c) = [] → assignZIndex l c = 1) ∧
        (l.filter (fun x => x.container == c) ≠ [] →
          (∃ r ∈ l.filter (fun x => x.container == c),
              assignZIndex l c = r.zIndex + 1) ∧
          ∀ r ∈ l.filter (fun x => x.container == c),
            r.zIndex < assignZIndex l c)) ∧
    (∀ ops : List Op, ∀ r1 ∈ (execOps initState ops).1.openedModals,
        ∀ r2 ∈ (execOps initState ops).1.openedModals,
        r1.container = r2.container → r1.id < r2.id → r1.zIndex < r2.zIndex) ∧
    (∀ (l1 l2 : List MRec) (c : Nat),
        l1.filter (fun x => x.container == c) =
          l2.filter (fun x => x.container == c) →
        assignZIndex l1 c = assignZIndex l2 c) := by
  refine ⟨?_, ?_, ?_⟩
  · intro l c
    constructor
    · intro hfil
      simp [assignZIndex, hfil]
    · intro hfil
      have hne : (l.filter (fun x => x.container == c)).isEmpty = false := by
        cases hf : l.filter (fun x => x.container == c) with
        | nil => exact absurd hf hfil
        | cons a as => simp [hf]
      constructor
      · obtain ⟨r, hr, hmax⟩ := maxZIndex_attained _ hfil
        refine ⟨r, hr, ?_⟩
        simp [assignZIndex, hne, hmax]
      · intro r hr
        exact assignZIndex_gt l c r (List.mem_filter.mp hr).1
          (by simpa using (List.mem_filter.mp hr).2)
  · intro ops
    exact (zOrderInv_execOps ops initState zOrderInv_init).2
  · intro l1 l2 c hfil
    simp only [assignZIndex, hfil]

/-- C8 witness: the empty container assigns zIndex 1; in the run opening two
modals in container 0, the first record (id 0, zIndex 1) stacks strictly below
the second (id 1, zIndex 2); and the assignment in container 9 ignores a record
living in container 3. -/
theorem C8_witness :
    assignZIndex [] 0 = 1 ∧
    ((⟨0, 1, 0, 1, false, false, false⟩ : MRec).zIndex <
      (⟨1, 2, 0, 2, false, false, false⟩ : MRec).zIndex) ∧
    assignZIndex [sampleRec] 9 = assignZIndex [] 9 :=
  ⟨(C8_zIndex_stacking.1 [] 0).1 rfl,
   C8_zIndex_stacking.2.1 [Op.openOp 1 MMB.onTop 0, Op.openOp 2 MMB.onTop 0]
     ⟨0, 1, 0, 1, false, false, false⟩ (by decide)
     ⟨1, 2, 0, 2, false, false, false⟩ (by decide) rfl (by decide),
   C8_zIndex_stacking.2.2 [sampleRec] [] 9 (by decide)⟩
